import Mathlib

/-!
Shallow embedding of the TEMU product-selection pipeline
(`app.py`, function `process_temu_selection` and its inner
`calculate_score`), together with theorems settling the specification
claims about it.

Modelling conventions:
* A spreadsheet cell of one of the designated numeric columns is a
  `Cell` (a number, a string, or an empty/NaN cell).
* A row of the combined table (after column renaming) is a `RawRec`;
  after numeric coercion it is a `Record` whose numeric fields are `ℚ`.
* Column presence (`'Price' in df.columns` …) is tracked by the Boolean
  flags of `Cols`; the columns the code never tests for presence
  (Title, Monthly_Sales, Sales_Growth, Ratings, ASIN values themselves)
  are carried as always-present fields of the row structures.
* `None` returned by the Python function is `Option.none`; an uncaught
  exception at the final projection (missing required output column) is
  also modelled as `none` (in both cases no output table is produced).
* pandas `sort_values(by='TPI_Score', ascending=False)` with its default
  `kind='quicksort'` guarantees only a score-descending permutation, not
  stability; `quicksortContract` captures exactly that guarantee, while
  `sortDesc` (a stable insertion sort) is one admissible implementation
  used to make the pipeline an executable function.
-/

/-- A raw cell of a designated numeric column (`Price`, `Monthly_Sales`,
`Ratings`, `Sales_Growth`): a number, a string, or an empty/NaN cell. -/
inductive Cell where
  | num (q : ℚ)
  | str (s : String)
  | empty
deriving DecidableEq, Repr

/-- Digits-only accumulator parse, as `pd.to_numeric` does for the integer
part of a plain decimal numeral; any non-digit character fails. -/
def parseNatAcc : ℕ → List Char → Option ℕ
  | acc, [] => some acc
  | acc, c :: cs =>
      if c.isDigit then parseNatAcc (10 * acc + (c.toNat - 48)) cs else none

/-- Split a character list at the first dot: integer part and, when a dot
is present, the remaining fractional part. -/
def splitDot : List Char → List Char × Option (List Char)
  | [] => ([], none)
  | c :: cs =>
      if c = '.' then ([], some cs)
      else
        let p := splitDot cs
        (c :: p.1, p.2)

/-- Parse an unsigned decimal numeral (`45`, `8.01`, `.5`, `45.`);
anything else (e.g. `N/A`, a second dot) fails.  Models the fragment of
`pd.to_numeric`'s grammar the pipeline's data exercises. -/
def parseUnsigned (cs : List Char) : Option ℚ :=
  let p := splitDot cs
  match p.2 with
  | none =>
      if p.1 = [] then none
      else (parseNatAcc 0 p.1).map (fun n => (n : ℚ))
  | some f =>
      if p.1 = [] ∧ f = [] then none
      else
        match parseNatAcc 0 p.1, parseNatAcc 0 f with
        | some n, some m => some ((n : ℚ) + (m : ℚ) / (10 : ℚ) ^ f.length)
        | _, _ => none

/-- Parse a possibly-negated decimal numeral. -/
def parseDec : List Char → Option ℚ
  | '-' :: rest => (parseUnsigned rest).map (fun q => -q)
  | cs => parseUnsigned cs

/-- Cleaning step `str.replace('%','').str.replace(',','')`:
remove every percent sign and comma. -/
def stripPercentComma (s : String) : List Char :=
  s.toList.filter (fun c => c ≠ '%' ∧ c ≠ ',')

/-- Numeric coercion of one cell:
`pd.to_numeric(..., errors='coerce').fillna(0)`, preceded for
string-typed data by stripping `%` and `,`.  Total by construction:
unparseable or missing data becomes `0`.  (`app.py` lines 65–71.) -/
def coerceCell : Cell → ℚ
  | .num q => q
  | .str s => (parseDec (stripPercentComma s)).getD 0
  | .empty => 0

/-- A row of the combined table after renaming, before numeric coercion.
`weight` is not in `numeric_cols`, so it is carried as a number. -/
structure RawRec where
  asin : String
  title : String
  brand : String
  price : Cell
  monthlySales : Cell
  salesGrowth : Cell
  ratings : Cell
  weight : ℚ
  sourceList : String
deriving DecidableEq, Repr

/-- A row after the Type Coercer: designated numeric fields are numbers. -/
structure Record where
  asin : String
  title : String
  brand : String
  price : ℚ
  monthlySales : ℚ
  salesGrowth : ℚ
  ratings : ℚ
  weight : ℚ
  sourceList : String
deriving DecidableEq, Repr

/-- Apply `coerceCell` to the designated numeric fields of a row. -/
def coerceRec (r : RawRec) : Record :=
  { asin := r.asin
    title := r.title
    brand := r.brand
    price := coerceCell r.price
    monthlySales := coerceCell r.monthlySales
    salesGrowth := coerceCell r.salesGrowth
    ratings := coerceCell r.ratings
    weight := r.weight
    sourceList := r.sourceList }

/-- Number of rows of `rows` carrying identifier `a`: the entry of
`full_df['ASIN'].value_counts()` for `a` (0 when absent, and
`value_counts` then has no entry). -/
def countASIN (rows : List Record) (a : String) : ℕ :=
  (rows.filter (fun r => r.asin = a)).length

/-- Lookup `asin_counts.get(asin, 1)`: the overlap count looked up during
scoring, defaulting to 1 for an identifier absent from the table. -/
def lookupCount (rows : List Record) (a : String) : ℕ :=
  if countASIN rows a = 0 then 1 else countASIN rows a

/-- Scoring function `calculate_score` of `app.py` (lines 102–129): base 50, then the
overlap bonus, the sales bonus, the price-band adjustment, and the
growth bonus, exactly as the sequential updates of the source. -/
def calculate_score (counts : String → ℕ) (r : Record) : ℤ :=
  let score : ℤ := 50
  let c := counts r.asin
  let score := if c = 2 then score + 30 else if 3 ≤ c then score + 50 else score
  let score := if 500 < r.monthlySales then score + 10 else score
  let score :=
    if 20 ≤ r.price ∧ r.price ≤ 40 then score + 10
    else if r.price < 15 then score - 10 else score
  let score := if 50 < r.salesGrowth then score + 10 else score
  score

/-- Overlap adjustment, stated as one independent addend (spec §4.5). -/
def overlapBonus (c : ℕ) : ℤ :=
  if c = 2 then 30 else if 3 ≤ c then 50 else 0

/-- Sales adjustment, stated as one independent addend (spec §4.5). -/
def salesBonus (ms : ℚ) : ℤ := if 500 < ms then 10 else 0

/-- Price-band adjustment, stated as one independent addend (spec §4.5). -/
def priceAdj (p : ℚ) : ℤ :=
  if 20 ≤ p ∧ p ≤ 40 then 10 else if p < 15 then -10 else 0

/-- Growth adjustment, stated as one independent addend (spec §4.5). -/
def growthBonus (g : ℚ) : ℤ := if 50 < g then 10 else 0

/-- Recursive worker for deduplication: keep a row only when its
identifier has not been seen before, accumulating seen identifiers. -/
def dedupASINAux (seen : List String) : List Record → List Record
  | [] => []
  | x :: xs =>
      if seen.contains x.asin then dedupASINAux seen xs
      else x :: dedupASINAux (x.asin :: seen) xs

/-- Deduplication `drop_duplicates(subset=['ASIN'])` with the default
`keep='first'` (`app.py` line 82): keep the first row of each identifier,
in input order, and drop every later row with the same identifier; kept
rows are unchanged. -/
def dedupASIN (l : List Record) : List Record :=
  dedupASINAux [] l

/-- Does the text contain the pattern as a leading segment? -/
def startsWithChars : List Char → List Char → Bool
  | [], _ => true
  | _ :: _, [] => false
  | p :: ps, t :: ts => p = t && startsWithChars ps ts

/-- Does the pattern occur contiguously anywhere in the text? -/
def occursIn (pat : List Char) : List Char → Bool
  | [] => startsWithChars pat []
  | t :: ts => startsWithChars pat (t :: ts) || occursIn pat ts

/-- Configuration list `BLOCK_BRANDS` of `app.py`. -/
def BLOCK_BRANDS : List String :=
  ["OXO", "Ninja", "KitchenAid", "Keurig", "AmazonBasics", "Cuisinart"]

/-- Lower-case every character of a string, as a character list. -/
def lowerChars (s : String) : List Char :=
  s.toList.map Char.toLower

/-- Brand test `str.contains('OXO|Ninja|...', case=False)`: some block-list keyword
occurs in the brand, case-insensitively. -/
def brandBlocked (brand : String) : Bool :=
  BLOCK_BRANDS.any (fun kw => occursIn (lowerChars kw) (lowerChars brand))

/-- Which canonical columns are present in the combined table; the code
tests exactly these with `'…' in unique_df.columns` / `full_df.columns`. -/
structure Cols where
  hasASIN : Bool
  hasBrand : Bool
  hasPrice : Bool
  hasWeight : Bool
deriving DecidableEq, Repr

/-- The combined table: column-presence flags plus the concatenated,
renamed rows in input order. -/
structure Frame where
  cols : Cols
  rows : List RawRec
deriving DecidableEq, Repr

/-- Filter stage (`app.py` lines 87–98): each of the brand, price and
weight filters is applied only when its column is present. -/
def applyFilters (c : Cols) (rows : List Record) : List Record :=
  let r1 := if c.hasBrand then rows.filter (fun r => !brandBlocked r.brand) else rows
  let r2 := if c.hasPrice then r1.filter (fun r => 8 < r.price) else r1
  if c.hasWeight then r2.filter (fun r => r.weight < 1000) else r2

/-- The price filter in isolation (`app.py` line 93):
`unique_df[unique_df['Price'] > 8]`. -/
def priceFilter (rows : List Record) : List Record :=
  rows.filter (fun r => 8 < r.price)

/-- A record paired with its TPI score. -/
structure Scored where
  row : Record
  score : ℤ
deriving DecidableEq, Repr

/-- Scores never increase along the list (descending by `TPI_Score`). -/
def sortedDescByScore (l : List Scored) : Prop :=
  List.Pairwise (fun a b => b.score ≤ a.score) l

/-- Everything pandas `sort_values(ascending=False)` with the default
`kind='quicksort'` guarantees about its output: a permutation of the
input whose scores are non-increasing.  Stability is NOT part of this
contract (quicksort is documented as unstable). -/
def quicksortContract (inp out : List Scored) : Prop :=
  inp.Perm out ∧ sortedDescByScore out

/-- Insert into a score-descending list, after existing equal scores. -/
def insertDesc (x : Scored) : List Scored → List Scored
  | [] => [x]
  | y :: ys => if y.score < x.score then x :: y :: ys else y :: insertDesc x ys

/-- A stable descending sort by score: one admissible implementation of
the sort step, used to make the pipeline an executable function. -/
def sortDesc (l : List Scored) : List Scored :=
  l.foldl (fun acc x => insertDesc x acc) []

/-- A row of the final output table, holding the always-required output
columns of the projection step (`app.py` lines 140–149). -/
structure OutRow where
  tpiScore : ℤ
  asin : String
  amazonURL : String
  title : String
  price : ℚ
  monthlySales : ℚ
  salesGrowth : ℚ
  ratings : ℚ
deriving DecidableEq, Repr

/-- Projection of a scored record to an output row, with
`Amazon_URL = 'https://www.amazon.com/dp/' + ASIN` (line 137). -/
def toOutRow (s : Scored) : OutRow :=
  { tpiScore := s.score
    asin := s.row.asin
    amazonURL := "https://www.amazon.com/dp/" ++ s.row.asin
    title := s.row.title
    price := s.row.price
    monthlySales := s.row.monthlySales
    salesGrowth := s.row.salesGrowth
    ratings := s.row.ratings }

/-- Steps 2–8 of `process_temu_selection` on the combined table: numeric
coercion, the ASIN-column check (`None` when absent), overlap counts on
the pre-dedup rows, dedup, filters, scoring, descending sort, `head(30)`,
URL derivation and projection.  A missing `Price` column makes the final
projection `top_30[output_cols]` raise, so no table is produced then
either (modelled as `none`). -/
def pipelineFromCombined (f : Frame) : Option (List OutRow) :=
  if f.cols.hasASIN = false then none
  else
    let rows := f.rows.map coerceRec
    let counts := fun a => lookupCount rows a
    let uniq := dedupASIN rows
    let surv := applyFilters f.cols uniq
    let scored := surv.map (fun r => Scored.mk r (calculate_score counts r))
    let top30 := (sortDesc scored).take 30
    if f.cols.hasPrice = false then none
    else some (top30.map toOutRow)

/-- Read loop of `process_temu_selection` (lines 38–51): each source is
either its parsed rows or a read failure; any failure aborts with `None`;
otherwise every row is tagged with its source name. -/
def readAllTagged : List (Option (List RawRec) × String) → Option (List (List RawRec))
  | [] => some []
  | (none, _) :: _ => none
  | (some rows, tag) :: rest =>
      (readAllTagged rest).map
        (fun tail => rows.map (fun r => { r with sourceList := tag }) :: tail)

/-- Entry point `process_temu_selection` (lines 30–151): read and tag all sources
(`None` on any read failure), `None` when no source was read
(`if not all_data`), else concatenate and run the combined pipeline.
The column flags stand for which canonical columns the concatenation
ends up with. -/
def process_temu_selection (c : Cols)
    (srcs : List (Option (List RawRec) × String)) : Option (List OutRow) :=
  match readAllTagged srcs with
  | none => none
  | some frames =>
      if frames = [] then none
      else pipelineFromCombined { cols := c, rows := frames.flatten }

/-- Convenience constructor for a concrete record with the given
identifier, price, monthly sales and growth (other fields fixed). -/
def mkRec (a : String) (p ms g : ℚ) : Record :=
  { asin := a, title := "t", brand := "b", price := p, monthlySales := ms,
    salesGrowth := g, ratings := 7, weight := 100, sourceList := "L" }

/-- Concrete combined table whose single row (price 5) is removed by the
price filter, so that zero records survive filtering. -/
def exFrameC5 : Frame :=
  { cols := { hasASIN := true, hasBrand := true, hasPrice := true, hasWeight := true }
    rows := [{ asin := "A", title := "", brand := "", price := .num 5,
               monthlySales := .empty, salesGrowth := .empty, ratings := .empty,
               weight := 0, sourceList := "" }] }

/-- Concrete combined table without an ASIN column. -/
def exFrameNoASIN : Frame :=
  { cols := { hasASIN := false, hasBrand := true, hasPrice := true, hasWeight := true }
    rows := [] }

/-- First of two distinct scored records sharing the same TPI score. -/
def tieA : Scored := { row := mkRec "A1" 25 600 60, score := 100 }

/-- Second of two distinct scored records sharing the same TPI score. -/
def tieB : Scored := { row := mkRec "B2" 25 600 60, score := 100 }

/-- Filtering the output of the deduplication worker by one identifier
yields nothing when that identifier was already seen, and otherwise the
first matching row of the input, unchanged. -/
theorem dedupASINAux_filter (a : String) (l : List Record) :
    ∀ seen : List String,
      (dedupASINAux seen l).filter (fun r => r.asin = a) =
        if a ∈ seen then [] else (l.filter (fun r => r.asin = a)).take 1 := by
  induction l with
  | nil =>
      intro seen
      by_cases h : a ∈ seen <;> simp [dedupASINAux, h]
  | cons x xs ih =>
      intro seen
      by_cases hx : x.asin ∈ seen
      · by_cases ha : a ∈ seen
        · simp [dedupASINAux, hx, ih, ha]
        · have hne : x.asin ≠ a := fun h => ha (h ▸ hx)
          simp [dedupASINAux, hx, ih, ha, List.filter_cons, hne]
      · by_cases hxa : x.asin = a
        · subst hxa
          simp [dedupASINAux, hx, List.filter_cons, ih]
        · by_cases ha : a ∈ seen
          · simp [dedupASINAux, hx, List.filter_cons, hxa, ih, ha]
          · have hax : ¬a = x.asin := fun h => hxa h.symm
            have ha' : a ∉ (x.asin :: seen) := by simp [List.mem_cons, ha, hax]
            simp [dedupASINAux, hx, List.filter_cons, hxa, ih, ha', ha, hax]

/-- The deduplication worker only removes rows: its output is a sublist
of its input. -/
theorem dedupASINAux_sublist :
    ∀ (l : List Record) (seen : List String),
      List.Sublist (dedupASINAux seen l) l := by
  intro l
  induction l with
  | nil => intro seen; simp [dedupASINAux]
  | cons x xs ih =>
      intro seen
      by_cases hx : x.asin ∈ seen
      · simpa [dedupASINAux, hx] using List.Sublist.cons x (ih seen)
      · simpa [dedupASINAux, hx] using List.Sublist.cons₂ x (ih (x.asin :: seen))

/-- Row counts per identifier add up over the concatenation of the
sources: the count on the flattened list is the sum of per-source
counts. -/
theorem countASIN_flatten (srcs : List (List Record)) (a : String) :
    countASIN srcs.flatten a = (srcs.map (fun s => countASIN s a)).sum := by
  induction srcs with
  | nil => simp [countASIN]
  | cons s rest ih => simp [countASIN, List.filter_append, ih, Function.comp_def]

/-- C1: for every record reaching the scoring stage, `calculate_score`
equals 50 plus four independent additive adjustments (overlap bonus,
sales bonus, price-band adjustment, growth bonus); the two price-band
branches are mutually exclusive; and a record with overlap 3,
Monthly_Sales 600, Price 25, Sales_Growth 60 scores exactly 130. -/
theorem calculate_score_additive_decomposition :
    (∀ (counts : String → ℕ) (r : Record),
        calculate_score counts r =
          50 + overlapBonus (counts r.asin) + salesBonus r.monthlySales
            + priceAdj r.price + growthBonus r.salesGrowth) ∧
    (∀ p : ℚ, ¬((20 ≤ p ∧ p ≤ 40) ∧ p < 15)) ∧
    calculate_score
        (fun a => lookupCount
          [mkRec "B001" 25 600 60, mkRec "B001" 25 600 60, mkRec "B001" 25 600 60] a)
        (mkRec "B001" 25 600 60) = 130 := by
  refine ⟨?_, ?_, by decide⟩
  · intro counts r
    simp only [calculate_score, overlapBonus, salesBonus, priceAdj, growthBonus]
    split_ifs <;> omega
  · rintro p ⟨⟨h1, -⟩, h2⟩
    linarith

/-- C9: every computed TPI score lies between 40 and 130 inclusive:
base 50, at most +50+10+10+10 in bonuses, at least −10 from the
low-price penalty. -/
theorem score_bounds :
    ∀ (counts : String → ℕ) (r : Record),
      40 ≤ calculate_score counts r ∧ calculate_score counts r ≤ 130 := by
  intro counts r
  constructor <;> (simp only [calculate_score]; split_ifs <;> omega)

/-- C7: numeric coercion of the designated fields is total and never
fails: a percent string such as "45%" coerces to 45 (not 0.45), an
unparseable value such as "N/A" and a missing cell coerce to 0, and an
already-numeric cell is kept as is. -/
theorem numeric_coercion_total_cases :
    coerceCell (.str "45%") = 45 ∧ coerceCell (.str "N/A") = 0 ∧
    coerceCell .empty = 0 ∧ ∀ q : ℚ, coerceCell (.num q) = q :=
  ⟨by decide, by decide, rfl, fun _ => rfl⟩

/-- C10: calling the entry point with an empty list of sources returns
the error value `none` — the same outcome as a fatal read failure — not
an empty well-formed table. -/
theorem empty_sources_return_error :
    ∀ c : Cols,
      process_temu_selection c [] = none ∧
      ∀ (tag : String) (rest : List (Option (List RawRec) × String)),
        process_temu_selection c ((none, tag) :: rest) = none :=
  fun _ => ⟨rfl, fun _ _ => rfl⟩

/-- C2: the overlap count used by scoring equals the number of rows of
the pre-deduplication concatenation sharing the identifier — summed per
row over the sources, so repeats inside one source count once per row —
and an identifier absent from the table is treated as count 1 and gets
no overlap bonus. -/
theorem overlap_count_correct :
    ∀ (srcs : List (List Record)) (a : String),
      (0 < countASIN srcs.flatten a →
        lookupCount srcs.flatten a = (srcs.map (fun s => countASIN s a)).sum) ∧
      (countASIN srcs.flatten a = 0 →
        lookupCount srcs.flatten a = 1 ∧
          overlapBonus (lookupCount srcs.flatten a) = 0) := by
  intro srcs a
  constructor
  · intro h
    rw [lookupCount, if_neg (Nat.pos_iff_ne_zero.mp h), countASIN_flatten]
  · intro h
    rw [lookupCount, if_pos h]
    exact ⟨rfl, by decide⟩

/-- Witness for C2 at a concrete input: identifier "A" occurs twice in
the first source and once in the second (count 3), identifier "B"
nowhere (treated as 1, bonus 0). -/
theorem overlap_count_correct_witness :
    lookupCount [[mkRec "A" 9 0 0, mkRec "A" 10 0 0], [mkRec "A" 11 0 0]].flatten "A" =
      ([[mkRec "A" 9 0 0, mkRec "A" 10 0 0], [mkRec "A" 11 0 0]].map
        (fun s => countASIN s "A")).sum ∧
    (lookupCount [[mkRec "A" 9 0 0, mkRec "A" 10 0 0], [mkRec "A" 11 0 0]].flatten "B" = 1 ∧
      overlapBonus
        (lookupCount [[mkRec "A" 9 0 0, mkRec "A" 10 0 0], [mkRec "A" 11 0 0]].flatten "B") = 0) :=
  ⟨(overlap_count_correct [[mkRec "A" 9 0 0, mkRec "A" 10 0 0], [mkRec "A" 11 0 0]] "A").1
      (by decide),
   (overlap_count_correct [[mkRec "A" 9 0 0, mkRec "A" 10 0 0], [mkRec "A" 11 0 0]] "B").2
      (by decide)⟩

/-- C4: deduplication retains, for every identifier, exactly the first
matching row of the concatenation, unchanged (no fields merged in), and
discards all later rows with that identifier; the output is a sublist of
the input, so nothing else is reordered or invented. -/
theorem dedup_keeps_first_occurrence :
    ∀ (rows : List Record) (a : String),
      (dedupASIN rows).filter (fun r => r.asin = a) =
        (rows.filter (fun r => r.asin = a)).take 1 ∧
      List.Sublist (dedupASIN rows) rows := by
  intro rows a
  refine ⟨?_, dedupASINAux_sublist rows []⟩
  simpa using dedupASINAux_filter a rows []

/-- C6: the price filter keeps exactly the records with Price > 8: a
record with Price 8 is dropped, one with Price 8.01 is kept, and a
record whose missing Price was coerced to 0 is dropped. -/
theorem price_filter_exclusive_boundary :
    (∀ (rows : List Record) (r : Record),
        r ∈ priceFilter rows ↔ r ∈ rows ∧ 8 < r.price) ∧
    priceFilter [mkRec "x" 8 0 0, mkRec "y" (801/100) 0 0,
        mkRec "z" (coerceCell .empty) 0 0] =
      [mkRec "y" (801/100) 0 0] := by
  constructor
  · intro rows r
    simp [priceFilter, List.mem_filter]
  · norm_num [priceFilter, List.filter, mkRec, coerceCell]

/-- C5: when the ASIN and Price columns are present and zero records
survive filtering, the pipeline still succeeds with an empty, well-formed
output table (`some []`), not an error and not the error value `none`. -/
theorem empty_survivors_yield_empty_table :
    ∀ f : Frame, f.cols.hasASIN = true → f.cols.hasPrice = true →
      applyFilters f.cols (dedupASIN (f.rows.map coerceRec)) = [] →
      pipelineFromCombined f = some [] := by
  intro f h1 h2 h3
  simp [pipelineFromCombined, h1, h2, h3, sortDesc]

/-- Witness for C5 at a concrete input: a one-row table whose row is
priced 5 and removed by the price filter, leaving zero survivors. -/
theorem empty_survivors_witness : pipelineFromCombined exFrameC5 = some [] :=
  empty_survivors_yield_empty_table exFrameC5 rfl rfl (by decide)

/-- C8: when the required ASIN column is absent from the combined record
set, the pipeline aborts with the error value before scoring and
produces no output table. -/
theorem missing_asin_aborts_pipeline :
    ∀ f : Frame, f.cols.hasASIN = false → pipelineFromCombined f = none := by
  intro f h
  simp [pipelineFromCombined, h]

/-- Witness for C8 at a concrete input: a table without an ASIN column. -/
theorem missing_asin_witness : pipelineFromCombined exFrameNoASIN = none :=
  missing_asin_aborts_pipeline exFrameNoASIN rfl

/-- C3 (code bug): the sort step guarantees only a score-descending
permutation (pandas default quicksort), so on two distinct records with
equal scores the order-swapping output satisfies everything the code
guarantees — stability ("ties keep their pre-sort merge order") is not
ensured by the code, contrary to the claim. -/
theorem sort_contract_admits_unstable_output :
    quicksortContract [tieA, tieB] [tieB, tieA] ∧
    tieA.score = tieB.score ∧ [tieB, tieA] ≠ [tieA, tieB] := by
  refine ⟨⟨List.Perm.swap tieB tieA [], ?_⟩, rfl, by decide⟩
  simp [sortedDescByScore, tieA, tieB]
